import Mathlib

/-!
Verification development for the ink-bunny session orchestrator ("brainbox").

The definitions below are shallow embeddings of the Python modules under
`src/brainbox/src/brainbox/`: dictionaries become association lists,
exceptions become `Except`, ambient clocks become explicit `now` parameters
(milliseconds since the epoch, as in the source), and nondeterministic
uuid generation becomes an explicit identifier argument.  The data-model
records (`Task`, `Token`, …) are declared in `models.py`, which is not part
of the sources at hand; they are modelled from the spec where noted.
-/

namespace Brainbox

/-- Modelled from the spec: task status values from `models.TaskStatus`
(PENDING, RUNNING, COMPLETED, FAILED, CANCELLED); terminal states are
COMPLETED, FAILED and CANCELLED. -/
inductive TaskStatus where
  | pending
  | running
  | completed
  | failed
  | cancelled
deriving DecidableEq, Repr

/-- Terminal task statuses, matching the set used in `router.restore_state`. -/
def TaskStatus.isTerminal : TaskStatus → Bool
  | .completed => true
  | .failed => true
  | .cancelled => true
  | _ => false

/-- Modelled from the spec: the bearer token record from `models.Token`
(token id, agent name, task id, capability set, issued-at, expiry). -/
structure Token where
  token_id : String
  agent_name : String
  task_id : String
  capabilities : List String
  issued : Nat
  expiry : Nat
deriving DecidableEq, Repr

/-- Modelled from the spec: the agent definition record from
`models.AgentDefinition` (name, image, capability set, hardened flag). -/
structure AgentDefinition where
  name : String
  image : String
  capabilities : List String
  hardened : Bool
deriving DecidableEq, Repr

/-- Modelled from the spec: the task record from `models.Task`. -/
structure Task where
  id : String
  description : String
  agent_name : String
  status : TaskStatus
  session_name : Option String
  token_id : Option String
  result : Option String
  error : Option String
  created_at : Nat
  updated_at : Nat
deriving DecidableEq, Repr

/-- Modelled from the spec: session lifecycle states from
`models.SessionState`. -/
inductive SessionState where
  | provisioning
  | configuring
  | starting
  | running
  | monitoring
  | recycling
  | recycled
deriving DecidableEq, Repr

/-- Modelled from the spec: the slice of `models.SessionContext` used by the
monitor and the lifecycle engine (name, backend kind, creation timestamp in
epoch milliseconds, TTL in seconds, failure counter, state). -/
structure SessionContext where
  session_name : String
  backend : String
  created_at : Nat
  ttl : Int
  health_failures : Nat
  state : SessionState
deriving DecidableEq, Repr

/-- Policy evaluation result, from `models.PolicyResult`. -/
structure PolicyResult where
  allowed : Bool
  reason : Option String
deriving DecidableEq, Repr

-- ---------------------------------------------------------------------------
-- Association-list tables (Python dicts)
-- ---------------------------------------------------------------------------

/-- Token table `registry._tokens`, keyed by token id. -/
abbrev TokenTable := List (String × Token)

/-- Agent table `registry._agents`, keyed by agent name. -/
abbrev AgentTable := List (String × AgentDefinition)

/-- Task table `router._tasks`, keyed by task id. -/
abbrev TaskTable := List (String × Task)

/-- Dict assignment `d[k] = v`: overwrite any existing binding of `k`. -/
def tableInsert {α : Type} (tbl : List (String × α)) (k : String) (v : α) :
    List (String × α) :=
  (k, v) :: tbl.filter (fun p => p.1 ≠ k)

/-- Dict deletion `d.pop(k, None)`. -/
def tableErase {α : Type} (tbl : List (String × α)) (k : String) :
    List (String × α) :=
  tbl.filter (fun p => p.1 ≠ k)

-- ---------------------------------------------------------------------------
-- registry.py: token issuance, validation, revocation
-- ---------------------------------------------------------------------------

/-- `registry.issue_token`: requires a registered agent, builds a token with
`issued = now` and `expiry = now + ttl * 1000`, and stores it under the given
fresh token id (`uuid4` in the source).  `none` models the `ValueError`
raised for an unregistered agent. -/
def issue_token (agents : AgentTable) (tbl : TokenTable)
    (tid agentName taskId : String) (ttl now : Nat) :
    Option (Token × TokenTable) :=
  match agents.lookup agentName with
  | none => none
  | some agent =>
    let tok : Token :=
      { token_id := tid
        agent_name := agentName
        task_id := taskId
        capabilities := agent.capabilities
        issued := now
        expiry := now + ttl * 1000 }
    some (tok, tableInsert tbl tid tok)

/-- `registry.validate_token`: return the token iff present and not expired;
an expired entry is evicted from the table on lookup. -/
def validate_token (tid : String) (now : Nat) (tbl : TokenTable) :
    Option Token × TokenTable :=
  match tbl.lookup tid with
  | none => (none, tbl)
  | some tok =>
    if now > tok.expiry then (none, tableErase tbl tid)
    else (some tok, tbl)

/-- `registry.revoke_token`: report whether the id existed, and drop it. -/
def revoke_token (tid : String) (tbl : TokenTable) : Bool × TokenTable :=
  ((tbl.lookup tid).isSome, tableErase tbl tid)

/-- `registry.list_tokens`: when the sweep is due (`time.monotonic()` at
least 60s past the last sweep, or more than 100 tokens — passed in here as
the boolean `due` since the monotonic clock is ambient), purge expired
tokens first; then return the table's values. -/
def list_tokens (tbl : TokenTable) (now : Nat) (due : Bool) :
    List Token × TokenTable :=
  if due then
    let tbl2 := tbl.filter (fun p => ¬ now > p.2.expiry)
    (tbl2.map Prod.snd, tbl2)
  else
    (tbl.map Prod.snd, tbl)

/-- `registry.restore_state`: re-insert every snapshot token whose expiry
has not passed. -/
def registry_restore_state (snap : Option (List (String × Token))) (now : Nat)
    (tbl : TokenTable) : TokenTable :=
  match snap with
  | none => tbl
  | some entries =>
    entries.foldl
      (fun t p => if now ≤ p.2.expiry then tableInsert t p.1 p.2 else t) tbl

-- ---------------------------------------------------------------------------
-- router.py: terminal transitions on the task table
-- ---------------------------------------------------------------------------

/-- `router.complete_task`: raises when the id is unknown or the task is not
RUNNING; otherwise sets status COMPLETED, the result and the update stamp.
The subsequent best-effort session recycle and token revocation act on other
tables (modelled separately) and cannot undo the transition. -/
def complete_task (tasks : TaskTable) (tid : String) (res : Option String)
    (now : Nat) : Except String Task × TaskTable :=
  match tasks.lookup tid with
  | none => (.error "Task not found", tasks)
  | some t =>
    if t.status ≠ .running then (.error "Task is not running", tasks)
    else
      let t2 : Task := { t with status := .completed, result := res, updated_at := now }
      (.ok t2, tableInsert tasks tid t2)

/-- `router.fail_task`: raises only when the id is unknown; any existing task
is marked FAILED regardless of its current status.  A falsy `error` argument
(absent or empty) is replaced by the string "Unknown error". -/
def fail_task (tasks : TaskTable) (tid : String) (err : Option String)
    (now : Nat) : Except String Task × TaskTable :=
  match tasks.lookup tid with
  | none => (.error "Task not found", tasks)
  | some t =>
    let msg : String :=
      match err with
      | some e => if e = "" then "Unknown error" else e
      | none => "Unknown error"
    let t2 : Task := { t with status := .failed, error := some msg, updated_at := now }
    (.ok t2, tableInsert tasks tid t2)

/-- `router.cancel_task`: raises when the id is unknown or the task is in
neither RUNNING nor PENDING; otherwise sets status CANCELLED. -/
def cancel_task (tasks : TaskTable) (tid : String) (now : Nat) :
    Except String Task × TaskTable :=
  match tasks.lookup tid with
  | none => (.error "Task not found", tasks)
  | some t =>
    if ¬ (t.status = .running ∨ t.status = .pending) then
      (.error "Task cannot be cancelled", tasks)
    else
      let t2 : Task := { t with status := .cancelled, updated_at := now }
      (.ok t2, tableInsert tasks tid t2)

/-- `router.restore_state`: drop tasks whose status is terminal, keep the
rest. -/
def router_restore_state (snap : Option (List (String × Task)))
    (tasks : TaskTable) : TaskTable :=
  match snap with
  | none => tasks
  | some entries =>
    entries.foldl
      (fun t p => if p.2.status.isTerminal then t else tableInsert t p.1 p.2)
      tasks

-- ---------------------------------------------------------------------------
-- lifecycle.py: session table, recycle, port allocation
-- ---------------------------------------------------------------------------

/-- Session table `lifecycle._sessions`, keyed by session name. -/
abbrev SessionTable := List (String × SessionContext)

/-- `lifecycle._resolve` applied to a session name: raise `ValueError` when
the name is not in the table. -/
def lifecycle_resolve (sessions : SessionTable) (name : String) :
    Except String SessionContext :=
  match sessions.lookup name with
  | none => .error "Session not found"
  | some ctx => .ok ctx

/-- `lifecycle.recycle` invoked with a session name: resolve it (raising for
an unknown name), set RECYCLING, stop monitoring, delegate stop/remove to
the backend (external effects), set RECYCLED, and pop the entry keyed by the
context's own `session_name` from the table. -/
def recycle_by_name (sessions : SessionTable) (name : String) :
    Except String (SessionContext × SessionTable) :=
  match lifecycle_resolve sessions name with
  | .error e => .error e
  | .ok ctx =>
    let ctx2 : SessionContext := { ctx with state := .recycled }
    .ok (ctx2, tableErase sessions ctx.session_name)

/-- The scan loop of `lifecycle._find_available_port`
(`while port in used: port += 1`), unrolled on explicit fuel; the loop visits
at most `used.length` distinct busy ports, so `used.length + 1` steps always
suffice. -/
def findPortGo (used : List Nat) : Nat → Nat → Nat
  | 0, port => port
  | fuel + 1, port =>
    if port ∈ used then findPortGo used fuel (port + 1) else port

/-- `lifecycle._find_available_port`: the first host port at or above
`start` (7681 at the call sites) that is not among the host-port bindings of
the live containers. -/
def find_available_port (used : List Nat) (start : Nat) : Nat :=
  findPortGo used (used.length + 1) start

-- ---------------------------------------------------------------------------
-- monitor.py: per-session tick
-- ---------------------------------------------------------------------------

/-- Outcome of the `backend.health_check` call inside the monitor loop: a
health dict with its `healthy` flag and `reason` string, an
`asyncio.TimeoutError`, or another exception. -/
inductive HealthOutcome where
  | result (healthy : Bool) (reason : String)
  | timeout
  | exception
deriving DecidableEq, Repr

/-- Python's substring test `sub in s`: a separator occurs in a string iff
splitting on it yields more than one piece. -/
def strContains (s sub : String) : Bool := (s.splitOn sub).length > 1

/-- One per-session step of `monitor._monitor_loop`: an unhealthy result
bumps the failure counter and drops the session from tracking when the
reason mentions "not found" (skipping the TTL check via `continue`); a
healthy result logs metrics and then runs the TTL check
`ttl > 0 and (now_ms - created_at) / 1000 > ttl`, marking the session
RECYCLING; a timeout bumps the failure counter; any other exception leaves
the session untouched.  Returns the updated context and whether the session
is still tracked. -/
def monitorTickSession (h : HealthOutcome) (nowMs : Nat) (ctx : SessionContext) :
    SessionContext × Bool :=
  match h with
  | .result healthy reason =>
    if healthy = false then
      ({ ctx with health_failures := ctx.health_failures + 1 },
       ¬ strContains reason.toLower "not found")
    else
      let elapsed : ℚ := ((nowMs : ℚ) - (ctx.created_at : ℚ)) / 1000
      if 0 < ctx.ttl ∧ (ctx.ttl : ℚ) < elapsed then
        ({ ctx with state := .recycling }, true)
      else (ctx, true)
  | .timeout =>
    ({ ctx with health_failures := ctx.health_failures + 1 }, true)
  | .exception => (ctx, true)

-- ---------------------------------------------------------------------------
-- policy.py + messages.py: message routing
-- ---------------------------------------------------------------------------

/-- A message envelope submitted to `messages.route`, restricted to the keys
the router reads; `none` models an absent key and `some ""` a present but
Python-falsy value.  `mtype` embeds the "type" key. -/
structure Envelope where
  sender_token_id : Option String
  recipient : Option String
  mtype : Option String
  payload : Option String
deriving DecidableEq, Repr

/-- Python truthiness of an optional string: `None` and `""` are falsy. -/
def otruthy : Option String → Bool
  | none => false
  | some s => !(s == "")

/-- Python truthiness of the envelope dict itself (`not payload`): falsy
exactly when no key is present. -/
def Envelope.isEmptyDict (e : Envelope) : Bool :=
  decide (e.sender_token_id = none ∧ e.recipient = none ∧
    e.mtype = none ∧ e.payload = none)

/-- A routed message: the dict built by `messages.route` on the accept
path. -/
structure Message where
  id : String
  timestamp : Nat
  sender : String
  sender_token_id : String
  task_id : String
  recipient : String
  mtype : Option String
  payload : Option String
deriving DecidableEq, Repr

/-- An audit-log record of `messages._message_log`; optional fields model
keys that are present only on some paths. -/
structure LogEntry where
  id : String
  timestamp : Nat
  sender : Option String
  sender_token_id : Option String
  recipient : Option String
  mtype : Option String
  status : String
  reason : Option String
deriving DecidableEq, Repr

/-- Pending queues `messages._pending`, keyed by recipient token id. -/
abbrev PendingTable := List (String × List Message)

/-- The audit deque `messages._message_log` with `maxlen = retention`:
appending one record drops from the front when over capacity. -/
def appendCapped (retention : Nat) (l : List LogEntry) (e : LogEntry) :
    List LogEntry :=
  let l2 := l ++ [e]
  l2.drop (l2.length - retention)

/-- `_pending.setdefault(token_id, []).append(message)`. -/
def pendingAppend (p : PendingTable) (tid : String) (m : Message) :
    PendingTable :=
  if (p.lookup tid).isSome then
    p.map (fun q => if q.1 = tid then (q.1, q.2 ++ [m]) else q)
  else p ++ [(tid, [m])]

/-- The per-recipient-token enqueue loop of `messages.route`. -/
def enqueueAll (ts : List Token) (m : Message) (p : PendingTable) :
    PendingTable :=
  ts.foldl (fun acc t => pendingAppend acc t.token_id m) p

/-- `policy.evaluate_message`: deny without a sender token, with a token
that no longer validates (re-validation may evict it), with a recipient that
is truthy, not `hub` and not a registered agent, or with a payload lacking a
`type` key (`route` passes the whole envelope as the payload); allow
otherwise. -/
def evaluate_message (agents : AgentTable) (tokens : TokenTable) (now : Nat)
    (sender_token : Option Token) (recipientName : String) (env : Envelope) :
    PolicyResult × TokenTable :=
  match sender_token with
  | none =>
    ({ allowed := false, reason := some "No sender token provided" }, tokens)
  | some tok =>
    let v := validate_token tok.token_id now tokens
    match v.1 with
    | none =>
      ({ allowed := false, reason := some "Sender token is invalid or expired" },
       v.2)
    | some _ =>
      if recipientName ≠ "" ∧ recipientName ≠ "hub" ∧
          agents.lookup recipientName = none then
        ({ allowed := false, reason := some "Recipient is not a registered agent" },
         v.2)
      else if env.isEmptyDict = true ∨ env.mtype = none then
        ({ allowed := false, reason := some "Payload must have a type field" },
         v.2)
      else ({ allowed := true, reason := none }, v.2)

/-- The mutable state touched by `messages.route`: the registry token table,
the pending queues and the audit log. -/
structure MsgState where
  tokens : TokenTable
  pending : PendingTable
  mlog : List LogEntry
deriving DecidableEq, Repr

/-- `messages.route`: validate the sender token (a falsy `sender_token_id`
skips validation); on a missing/invalid/expired token append a rejected
audit record with reason `invalid_token` and raise; run the message policy
and on deny append a rejected record with the policy's reason and raise; on
accept build the message and, when the recipient is truthy and not `hub`,
enqueue one copy per token currently held by that agent as returned by
`list_tokens` (whose conditional sweep is captured by `due`), then append a
delivered record.  `entryId`/`msgId` are the uuids generated on the two
paths; `retention` is `settings.hub.message_retention`. -/
def route (agents : AgentTable) (retention : Nat) (due : Bool) (now : Nat)
    (entryId msgId : String) (env : Envelope) (st : MsgState) :
    Except String Message × MsgState :=
  let v :=
    if otruthy env.sender_token_id then
      validate_token (env.sender_token_id.getD "") now st.tokens
    else (none, st.tokens)
  match v.1 with
  | none =>
    let entry : LogEntry :=
      { id := entryId, timestamp := now, sender := none,
        sender_token_id := env.sender_token_id, recipient := env.recipient,
        mtype := env.mtype, status := "rejected",
        reason := some "invalid_token" }
    (.error "Invalid or expired token",
     { tokens := v.2, pending := st.pending,
       mlog := appendCapped retention st.mlog entry })
  | some token =>
    let c := evaluate_message agents v.2 now (some token)
      (env.recipient.getD "hub") env
    if c.1.allowed = false then
      let entry : LogEntry :=
        { id := entryId, timestamp := now, sender := some token.agent_name,
          sender_token_id := some token.token_id, recipient := env.recipient,
          mtype := env.mtype, status := "rejected", reason := c.1.reason }
      (.error ((c.1.reason).getD ""),
       { tokens := c.2, pending := st.pending,
         mlog := appendCapped retention st.mlog entry })
    else
      let message : Message :=
        { id := msgId, timestamp := now, sender := token.agent_name,
          sender_token_id := token.token_id, task_id := token.task_id,
          recipient := env.recipient.getD "hub", mtype := env.mtype,
          payload := env.payload }
      let pt : PendingTable × TokenTable :=
        match env.recipient with
        | some r =>
          if r ≠ "" ∧ r ≠ "hub" then
            let lt := list_tokens c.2 now due
            (enqueueAll (lt.1.filter (fun t => t.agent_name = r)) message
              st.pending, lt.2)
          else (st.pending, c.2)
        | none => (st.pending, c.2)
      let entry : LogEntry :=
        { id := msgId, timestamp := now, sender := some token.agent_name,
          sender_token_id := none, recipient := some message.recipient,
          mtype := env.mtype, status := "delivered", reason := none }
      (.ok message,
       { tokens := pt.2, pending := pt.1,
         mlog := appendCapped retention st.mlog entry })

/-- `messages.restore_state`: re-install each snapshot pending queue whose
key token still validates (the validation's lazy eviction threads through
the registry table); the audit log is deliberately not restored. -/
def messages_restore_state (snap : Option PendingTable) (now : Nat)
    (tokens : TokenTable) (pending : PendingTable) :
    TokenTable × PendingTable :=
  match snap with
  | none => (tokens, pending)
  | some entries =>
    entries.foldl
      (fun acc q =>
        let v := validate_token q.1 now acc.1
        match v.1 with
        | some _ => (v.2, tableInsert acc.2 q.1 q.2)
        | none => (v.2, acc.2))
      (tokens, pending)

-- ---------------------------------------------------------------------------
-- hub.py: snapshot restore
-- ---------------------------------------------------------------------------

/-- The snapshot document as `hub._restore_state` consumes it; each section
is `state.get(...)`-tolerant, and `none` at the top level models a missing
or unparseable state file. -/
structure Snapshot where
  registry : Option (List (String × Token))
  router : Option (List (String × Task))
  messagesPending : Option PendingTable
deriving DecidableEq, Repr

/-- The in-memory tables rebuilt by `hub._restore_state`. -/
structure HubTables where
  tokens : TokenTable
  tasks : TaskTable
  pending : PendingTable
  mlog : List LogEntry
deriving DecidableEq, Repr

/-- `hub._restore_state` on a fresh process (all tables initially empty):
an absent or unparseable snapshot leaves every table empty; otherwise
restore registry tokens first, then router tasks, then pending messages;
the audit log is not restored. -/
def hub_restore_state (snap : Option Snapshot) (now : Nat) : HubTables :=
  match snap with
  | none => { tokens := [], tasks := [], pending := [], mlog := [] }
  | some s =>
    let tokens := registry_restore_state s.registry now []
    let tasks := router_restore_state s.router []
    let mp := messages_restore_state s.messagesPending now tokens []
    { tokens := mp.1, tasks := tasks, pending := mp.2, mlog := [] }

-- ---------------------------------------------------------------------------
-- registry.load_agents
-- ---------------------------------------------------------------------------

/-- Content of an agent-definition file as far as `load_agents` inspects it:
`name`/`image` are `raw.get(...)` with Python truthiness (an absent field and
an empty string are equally falsy, so both are modelled as `""`);
`ctorOk = false` models `AgentDefinition(**raw)` raising (e.g. on unexpected
fields). -/
structure RawAgent where
  name : String
  image : String
  capabilities : List String
  hardened : Bool
  ctorOk : Bool
deriving DecidableEq, Repr

/-- A directory entry of the agents directory: file name, whether the suffix
is `.json`, whether the mode has the world-write bit, and the parse outcome
(`none` models `json.loads` raising). -/
structure AgentFile where
  fname : String
  isJsonFile : Bool
  worldWritable : Bool
  parsed : Option RawAgent
deriving DecidableEq, Repr

/-- One iteration of the `registry.load_agents` file loop: skip non-`.json`
entries; log and strip the world-write bit of a world-writable file (the
accumulator's second component records the files chmodded), then read and
parse it anyway; skip (with a warning) files that fail to parse, lack a
truthy `name` or `image`, or fail `AgentDefinition(**raw)`; otherwise store
the definition under its name. -/
def loadAgentsStep (acc : AgentTable × List String) (f : AgentFile) :
    AgentTable × List String :=
  if f.isJsonFile = false then acc
  else
    let stripped := if f.worldWritable then acc.2 ++ [f.fname] else acc.2
    match f.parsed with
    | none => (acc.1, stripped)
    | some raw =>
      if raw.name = "" ∨ raw.image = "" then (acc.1, stripped)
      else if raw.ctorOk = false then (acc.1, stripped)
      else
        (tableInsert acc.1 raw.name
          { name := raw.name, image := raw.image,
            capabilities := raw.capabilities, hardened := raw.hardened },
         stripped)

/-- `registry.load_agents` over the (sorted) directory listing: fold the
per-file loop over an initially empty agent table. -/
def load_agents (files : List AgentFile) : AgentTable × List String :=
  files.foldl loadAgentsStep ([], [])

-- ---------------------------------------------------------------------------
-- container_api._run_and_capture (terminal-bridge completion detector)
-- ---------------------------------------------------------------------------

/-- One pane capture of the terminal-bridge poll loop, as far as
`_run_and_capture` inspects it: the pane's line count and whether the last
line contains the prompt character. -/
structure PaneCapture where
  lineCount : Nat
  promptInLastLine : Bool
deriving DecidableEq, Repr

/-- The poll loop of `container_api._run_and_capture`: every iteration
sleeps `poll_interval = 1.0` seconds, bumps `waited`, captures the pane
(`panes k` is the k-th capture), and either increments `stable_count` (when
the line count equals the remembered one and the prompt character is in the
last line), breaking once it reaches 3, or resets `stable_count` to 0 and
remembers the new line count.  `fuel` is `max_wait - waited`, so `fuel > 0`
is the `while waited < max_wait` condition.  Returns `some waited` on break,
`none` when the while-condition ends the loop. -/
def rcGo (panes : Nat → PaneCapture) :
    Nat → Nat → Nat → Nat → Nat → Option Nat
  | 0, _, _, _, _ => none
  | fuel + 1, k, stable, last, waited =>
    let waited2 := waited + 1
    let cap := panes k
    if cap.lineCount = last ∧ cap.promptInLastLine = true then
      (if 3 ≤ stable + 1 then some waited2
       else rcGo panes fuel (k + 1) (stable + 1) last waited2)
    else rcGo panes fuel (k + 1) 0 cap.lineCount waited2

/-- `container_api._run_and_capture`: run the poll loop starting from the
pre-prompt line count, then raise HTTP 408 when `waited >= max_wait` — which
fires when the loop ran out of time and also when stability was first
reached exactly at the cap.  Returns the seconds waited. -/
def run_and_capture (panes : Nat → PaneCapture) (beforeLineCount timeout : Nat) :
    Except String Nat :=
  match rcGo panes timeout 0 0 beforeLineCount 0 with
  | none => .error "timeout"
  | some waited => if timeout ≤ waited then .error "timeout" else .ok waited

/-- Whether an embedded operation succeeded (returned rather than raised). -/
def opOk {ε α : Type} : Except ε α → Bool
  | .ok _ => true
  | .error _ => false

-- ---------------------------------------------------------------------------
-- Witness fixtures
-- ---------------------------------------------------------------------------

/-- A concrete agent table entry for witnesses. -/
def devAgent : AgentDefinition :=
  { name := "a", image := "i", capabilities := ["c"], hardened := false }

/-- A concrete task in a given status, for witnesses and counterexamples. -/
def sampleTask (st : TaskStatus) : Task :=
  { id := "t1", description := "build", agent_name := "a", status := st,
    session_name := some "task-t1", token_id := some "tok", result := none,
    error := none, created_at := 0, updated_at := 0 }

/-- A concrete session context for witnesses and counterexamples. -/
def sampleSession : SessionContext :=
  { session_name := "s1", backend := "docker", created_at := 0, ttl := 1,
    health_failures := 0, state := .monitoring }

/-- A world-writable but otherwise well-formed agent file. -/
def wwFile : AgentFile :=
  { fname := "dev.json", isJsonFile := true, worldWritable := true,
    parsed := some { name := "dev", image := "dev:1",
                     capabilities := ["shell"], hardened := false,
                     ctorOk := true } }

/-- An agent file whose JSON fails to parse. -/
def badFile : AgentFile :=
  { fname := "broken.json", isJsonFile := true, worldWritable := false,
    parsed := none }

/-- A well-formed, correctly-permissioned agent file. -/
def goodFile : AgentFile :=
  { fname := "ok.json", isJsonFile := true, worldWritable := false,
    parsed := some { name := "ok", image := "ok:1", capabilities := [],
                     hardened := true, ctorOk := true } }

/-- A pane that is permanently stable with the prompt visible. -/
def stablePane : Nat → PaneCapture :=
  fun _ => { lineCount := 5, promptInLastLine := true }

/-- A live token held by agent `alice` (sender in routing examples). -/
def aliceToken : Token :=
  { token_id := "ta", agent_name := "alice", task_id := "task1",
    capabilities := [], issued := 0, expiry := 10000 }

/-- A live token held by agent `bob` (recipient in routing examples). -/
def bobTokenLive : Token :=
  { token_id := "tb1", agent_name := "bob", task_id := "task2",
    capabilities := [], issued := 0, expiry := 10000 }

/-- An expired token held by agent `bob` (expiry 50 < now 1000). -/
def bobTokenExpired : Token :=
  { token_id := "tb2", agent_name := "bob", task_id := "task3",
    capabilities := [], issued := 0, expiry := 50 }

/-- Agent table with `alice` and `bob` registered. -/
def twoAgents : AgentTable :=
  [("alice", { name := "alice", image := "a:1", capabilities := [],
               hardened := false }),
   ("bob", { name := "bob", image := "b:1", capabilities := [],
             hardened := false })]

/-- Routing state: alice's live token, bob's live token, bob's expired
token; empty queues and log. -/
def routeState : MsgState :=
  { tokens := [("ta", aliceToken), ("tb1", bobTokenLive),
               ("tb2", bobTokenExpired)],
    pending := [], mlog := [] }

/-- A well-formed envelope from alice to bob. -/
def aliceToBobEnv : Envelope :=
  { sender_token_id := some "ta", recipient := some "bob",
    mtype := some "chat", payload := some "hi" }

/-- An envelope with no sender token (rejected as `invalid_token`). -/
def rejectEnv : Envelope :=
  { sender_token_id := none, recipient := some "bob",
    mtype := some "chat", payload := none }

/-- An empty message-fabric state. -/
def emptyMsgState : MsgState := { tokens := [], pending := [], mlog := [] }

/-- The message `route` builds for `aliceToBobEnv` at time 1000 with message
id `m1`. -/
def deliveredMsg : Message :=
  { id := "m1", timestamp := 1000, sender := "alice", sender_token_id := "ta",
    task_id := "task1", recipient := "bob", mtype := some "chat",
    payload := some "hi" }

/-- A snapshot message whose sender token (`ts`) no longer exists. -/
def staleMsg : Message :=
  { id := "m0", timestamp := 1, sender := "alice", sender_token_id := "ts",
    task_id := "t0", recipient := "bob", mtype := some "chat",
    payload := none }

/-- A snapshot with a live and an expired token, a running and a completed
task, and two pending queues: one keyed by the live token `ta`, one by an
unknown token `zz`; both queues hold a message whose sender token `ts` is
gone. -/
def wSnapshot : Snapshot :=
  { registry := some [("ta", aliceToken), ("tb2", bobTokenExpired)],
    router := some [("t1", sampleTask .running), ("t2", sampleTask .completed)],
    messagesPending := some [("ta", [staleMsg]), ("zz", [staleMsg])] }

-- ---------------------------------------------------------------------------
-- Table lemmas
-- ---------------------------------------------------------------------------

theorem lookup_filter_ne {α : Type} (tbl : List (String × α)) (k k2 : String)
    (h : k2 ≠ k) :
    (tbl.filter (fun p => p.1 ≠ k)).lookup k2 = tbl.lookup k2 := by
  induction tbl with
  | nil => rfl
  | cons p rest ih =>
    obtain ⟨pk, pv⟩ := p
    simp only [ne_eq, decide_not] at ih
    by_cases hp : pk = k
    · subst hp
      simp [List.filter_cons, List.lookup_cons, beq_false_of_ne h, ih]
    · by_cases hk2 : k2 = pk
      · subst hk2
        simp [List.filter_cons, List.lookup_cons, hp]
      · simp [List.filter_cons, List.lookup_cons, hp, beq_false_of_ne hk2, ih]

theorem lookup_tableErase_self {α : Type} (tbl : List (String × α)) (k : String) :
    (tableErase tbl k).lookup k = none := by
  induction tbl with
  | nil => rfl
  | cons p rest ih =>
    obtain ⟨pk, pv⟩ := p
    by_cases hp : pk = k
    · simpa [tableErase, List.filter_cons, hp] using ih
    · have hne : k ≠ pk := fun hh => hp hh.symm
      simpa [tableErase, List.filter_cons, hp, List.lookup_cons,
        beq_false_of_ne hne] using ih

theorem lookup_tableErase_ne {α : Type} (tbl : List (String × α)) (k k2 : String)
    (h : k2 ≠ k) :
    (tableErase tbl k).lookup k2 = tbl.lookup k2 :=
  lookup_filter_ne tbl k k2 h

theorem lookup_tableInsert_self {α : Type} (tbl : List (String × α)) (k : String)
    (v : α) : (tableInsert tbl k v).lookup k = some v := by
  simp [tableInsert, List.lookup]

theorem lookup_tableInsert_ne {α : Type} (tbl : List (String × α)) (k k2 : String)
    (v : α) (h : k2 ≠ k) :
    (tableInsert tbl k v).lookup k2 = tbl.lookup k2 := by
  unfold tableInsert
  rw [List.lookup_cons]
  simp only [beq_false_of_ne h]
  exact lookup_filter_ne tbl k k2 h

-- ---------------------------------------------------------------------------
-- validate_token lemmas
-- ---------------------------------------------------------------------------

theorem validate_token_some_iff (tid : String) (now : Nat) (tbl : TokenTable)
    (tok : Token) :
    (validate_token tid now tbl).1 = some tok ↔
      tbl.lookup tid = some tok ∧ now ≤ tok.expiry := by
  unfold validate_token
  split
  next hl => simp [hl]
  next t hl =>
    rw [hl]
    by_cases hexp : now > t.expiry
    · rw [if_pos hexp]
      constructor
      · intro hc; exact absurd hc (by simp)
      · rintro ⟨ht, hle⟩
        injection ht with ht
        subst ht
        exact absurd hle (by omega)
    · rw [if_neg hexp]
      constructor
      · intro hc
        replace hc : some t = some tok := hc
        refine ⟨hc, ?_⟩
        injection hc with ht
        subst ht
        omega
      · exact fun hp => hp.1

theorem validate_token_some_table (tid : String) (now : Nat) (tbl : TokenTable)
    (tok : Token) (h : (validate_token tid now tbl).1 = some tok) :
    (validate_token tid now tbl).2 = tbl := by
  unfold validate_token at h ⊢
  split at h
  next hl => exact absurd h (by simp)
  next t hl =>
    split
    next hgt => rw [if_pos hgt] at h; exact absurd h (by simp)
    next hle => rfl

/-- Tokens produced by the restore fold are never expired (relative to the
restore clock) when the initial table has none. -/
theorem restore_fold_unexpired (entries : List (String × Token)) (now : Nat) :
    ∀ tbl : TokenTable, (∀ p ∈ tbl, now ≤ p.2.expiry) →
      ∀ p ∈ entries.foldl
          (fun t q => if now ≤ q.2.expiry then tableInsert t q.1 q.2 else t) tbl,
        now ≤ p.2.expiry := by
  induction entries with
  | nil => intro tbl h; simpa using h
  | cons e rest ih =>
    intro tbl h
    simp only [List.foldl_cons]
    by_cases he : now ≤ e.2.expiry
    · rw [if_pos he]
      refine ih (tableInsert tbl e.1 e.2) ?_
      intro p hp
      rcases List.mem_cons.mp hp with hp | hp
      · subst hp; exact he
      · exact h p (List.mem_of_mem_filter hp)
    · rw [if_neg he]
      exact ih tbl h

/-- C2 helper: tokens restored by `registry_restore_state` into an initially
clean table are never expired. -/
theorem registry_restore_unexpired (entries : List (String × Token)) (now : Nat)
    (tbl : TokenTable)
    (h : ∀ p ∈ tbl, now ≤ p.2.expiry) :
    ∀ p ∈ registry_restore_state (some entries) now tbl, now ≤ p.2.expiry :=
  restore_fold_unexpired entries now tbl h

-- ---------------------------------------------------------------------------
-- C2: token validation
-- ---------------------------------------------------------------------------

/-- C2: `validate_token` returns the token iff it is present and unexpired;
a present-but-expired token is evicted and `none` is returned; a freshly
issued token validates (at any instant up to its expiry); after
`revoke_token` a subsequent validation returns `none`. -/
theorem token_validation_correct :
    (∀ (tid : String) (now : Nat) (tbl : TokenTable) (tok : Token),
        (validate_token tid now tbl).1 = some tok ↔
          tbl.lookup tid = some tok ∧ now ≤ tok.expiry) ∧
    (∀ (tid : String) (now : Nat) (tbl : TokenTable) (tok : Token),
        tbl.lookup tid = some tok → now > tok.expiry →
          (validate_token tid now tbl).1 = none ∧
          (validate_token tid now tbl).2.lookup tid = none) ∧
    (∀ (agents : AgentTable) (tbl : TokenTable)
        (tid agentName taskId : String) (ttl now now2 : Nat)
        (tok : Token) (tbl2 : TokenTable),
        issue_token agents tbl tid agentName taskId ttl now = some (tok, tbl2) →
        now2 ≤ now + ttl * 1000 →
          (validate_token tid now2 tbl2).1 = some tok) ∧
    (∀ (tid : String) (now : Nat) (tbl : TokenTable),
        (validate_token tid now (revoke_token tid tbl).2).1 = none) := by
  refine ⟨validate_token_some_iff, ?_, ?_, ?_⟩
  · intro tid now tbl tok hl hexp
    unfold validate_token
    split
    next hl2 => rw [hl2] at hl; cases hl
    next t hl2 =>
      rw [hl] at hl2
      injection hl2 with ht
      subst ht
      rw [if_pos hexp]
      exact ⟨rfl, lookup_tableErase_self tbl tid⟩
  · intro agents tbl tid agentName taskId ttl now now2 tok tbl2 hiss hle
    unfold issue_token at hiss
    cases hag : agents.lookup agentName with
    | none => rw [hag] at hiss; exact absurd hiss (by simp)
    | some agent =>
      rw [hag] at hiss
      injection hiss with hiss
      injection hiss with htok htbl
      subst htbl
      rw [validate_token_some_iff]
      refine ⟨?_, ?_⟩
      · rw [lookup_tableInsert_self, htok]
      · rw [← htok]; exact hle
  · intro tid now tbl
    unfold validate_token
    rw [show (revoke_token tid tbl).2 = tableErase tbl tid from rfl,
        lookup_tableErase_self]

/-- C2 witness: a concrete issue → validate → revoke → validate run. -/
theorem token_validation_correct_witness :
    ∃ tok tbl2,
      issue_token [("a", devAgent)] [] "t1" "a" "task" 60 1000 =
        some (tok, tbl2) ∧
      (validate_token "t1" 2000 tbl2).1 = some tok ∧
      (validate_token "t1" 2000 (revoke_token "t1" tbl2).2).1 = none := by
  refine ⟨_, _, rfl, ?_, ?_⟩
  · exact token_validation_correct.2.2.1 [("a", devAgent)] [] "t1" "a" "task"
      60 1000 2000 _ _ rfl (by norm_num)
  · exact token_validation_correct.2.2.2 "t1" 2000 _

-- ---------------------------------------------------------------------------
-- C1: terminal transition guards
-- ---------------------------------------------------------------------------

/-- C1 counterexample: the claim says `fail_task` raises when the task is in
a terminal status, but on a COMPLETED task `fail_task` succeeds and moves it
to FAILED. -/
theorem terminal_guard_cex :
    TaskStatus.isTerminal (sampleTask .completed).status = true ∧
    (fail_task [("t1", sampleTask .completed)] "t1" none 5).1 =
      .ok { sampleTask .completed with
            status := .failed,
            error := some "Unknown error",
            updated_at := 5 } := by
  constructor
  · rfl
  · rfl

/-- C1 amended: `complete_task` succeeds exactly when the task exists and is
RUNNING, `cancel_task` exactly when it exists and is RUNNING or PENDING, and
`fail_task` for ANY existing task regardless of status (terminal included);
every raising case leaves the task table unchanged, and every success sets
the corresponding terminal status. -/
theorem terminal_transition_guards (tasks : TaskTable) (tid : String)
    (res err : Option String) (now : Nat) :
    (tasks.lookup tid = none →
        opOk (complete_task tasks tid res now).1 = false ∧
        (complete_task tasks tid res now).2 = tasks ∧
        opOk (fail_task tasks tid err now).1 = false ∧
        (fail_task tasks tid err now).2 = tasks ∧
        opOk (cancel_task tasks tid now).1 = false ∧
        (cancel_task tasks tid now).2 = tasks) ∧
    (∀ t, tasks.lookup tid = some t →
        (opOk (complete_task tasks tid res now).1 = true ↔
          t.status = .running) ∧
        (t.status ≠ .running → (complete_task tasks tid res now).2 = tasks) ∧
        (t.status = .running →
          (complete_task tasks tid res now).2.lookup tid =
            some { t with
                   status := .completed,
                   result := res,
                   updated_at := now }) ∧
        (opOk (cancel_task tasks tid now).1 = true ↔
          (t.status = .running ∨ t.status = .pending)) ∧
        (¬ (t.status = .running ∨ t.status = .pending) →
          (cancel_task tasks tid now).2 = tasks) ∧
        ((t.status = .running ∨ t.status = .pending) →
          (cancel_task tasks tid now).2.lookup tid =
            some { t with status := .cancelled, updated_at := now }) ∧
        opOk (fail_task tasks tid err now).1 = true ∧
        ((fail_task tasks tid err now).2.lookup tid).map Task.status =
          some .failed) := by
  constructor
  · intro hnone
    unfold complete_task fail_task cancel_task
    simp [hnone, opOk]
  · intro t ht
    unfold complete_task fail_task cancel_task
    simp only [ht]
    by_cases hr : t.status = TaskStatus.running
    · have hc : t.status = TaskStatus.running ∨ t.status = TaskStatus.pending :=
        Or.inl hr
      simp [hr, hc, opOk, lookup_tableInsert_self]
    · by_cases hp : t.status = TaskStatus.pending
      · simp [hr, hp, opOk, lookup_tableInsert_self]
      · simp [hr, hp, opOk, lookup_tableInsert_self]

/-- C1 witness: at a RUNNING task, completion succeeds; at a COMPLETED task,
cancellation raises and the table is untouched. -/
theorem terminal_transition_guards_witness :
    opOk (complete_task [("t1", sampleTask .running)] "t1" none 5).1 = true ∧
    opOk (cancel_task [("t1", sampleTask .completed)] "t1" 5).1 = false := by
  constructor
  · exact (((terminal_transition_guards [("t1", sampleTask .running)] "t1"
      none none 5).2 (sampleTask .running) (by simp [List.lookup])).1).mpr rfl
  · have h := (((terminal_transition_guards [("t1", sampleTask .completed)]
      "t1" none none 5).2 (sampleTask .completed)
      (by simp [List.lookup])).2.2.2.1)
    simp only [sampleTask] at h
    rw [Bool.eq_false_iff]
    intro hh
    rcases h.mp hh with hx | hx <;> cases hx

-- ---------------------------------------------------------------------------
-- C3: recycle idempotence
-- ---------------------------------------------------------------------------

theorem mem_of_lookup_eq_some {α : Type} {tbl : List (String × α)} {k : String}
    {v : α} (h : tbl.lookup k = some v) : (k, v) ∈ tbl := by
  induction tbl with
  | nil => cases h
  | cons p rest ih =>
    obtain ⟨pk, pv⟩ := p
    by_cases hk : k = pk
    · subst hk
      rw [List.lookup_cons] at h
      simp only [beq_self_eq_true] at h
      injection h with h
      subst h
      exact List.mem_cons_self _ _
    · rw [List.lookup_cons] at h
      simp only [beq_false_of_ne hk] at h
      exact List.mem_cons_of_mem _ (ih h)

/-- C3 counterexample: recycling a session by name succeeds, but a second
recycle of the same name raises "Session not found" instead of succeeding as
a no-op. -/
theorem recycle_idempotence_cex :
    recycle_by_name [("s1", sampleSession)] "s1" =
      .ok ({ sampleSession with state := .recycled }, []) ∧
    recycle_by_name [] "s1" = .error "Session not found" := by
  constructor
  · rfl
  · rfl

/-- C3 amended: a successful `recycle` by name marks the context RECYCLED
and removes the session from the table, and a second `recycle` invoked with
the same session name raises `ValueError` ("Session '…' not found") rather
than succeeding as a no-op (well-keyed table: every entry is stored under
its context's session name). -/
theorem recycle_not_idempotent (sessions : SessionTable) (name : String)
    (ctx : SessionContext) (tbl2 : SessionTable)
    (hwf : ∀ p ∈ sessions, p.2.session_name = p.1)
    (h : recycle_by_name sessions name = .ok (ctx, tbl2)) :
    ctx.state = .recycled ∧ tbl2.lookup name = none ∧
    recycle_by_name tbl2 name = .error "Session not found" := by
  unfold recycle_by_name lifecycle_resolve at h
  cases hl : sessions.lookup name with
  | none => rw [hl] at h; cases h
  | some c =>
    rw [hl] at h
    injection h with h
    have hname : c.session_name = name := hwf (name, c) (mem_of_lookup_eq_some hl)
    have hctx2 : ctx = { c with state := .recycled } := (congrArg Prod.fst h).symm
    have htbl2 : tbl2 = tableErase sessions c.session_name :=
      (congrArg Prod.snd h).symm
    subst hctx2
    refine ⟨rfl, ?_, ?_⟩
    · rw [htbl2, hname]
      exact lookup_tableErase_self sessions name
    · unfold recycle_by_name lifecycle_resolve
      rw [htbl2, hname, lookup_tableErase_self sessions name]

/-- C3 witness: the amended statement at a concrete one-session table. -/
theorem recycle_not_idempotent_witness :
    ({ sampleSession with state := .recycled } : SessionContext).state =
        SessionState.recycled ∧
    ([] : SessionTable).lookup "s1" = none ∧
    recycle_by_name [] "s1" = .error "Session not found" :=
  recycle_not_idempotent [("s1", sampleSession)] "s1"
    { sampleSession with state := .recycled } []
    (by intro p hp; simp only [List.mem_singleton] at hp; subst hp; rfl)
    rfl

-- ---------------------------------------------------------------------------
-- C8: port allocation
-- ---------------------------------------------------------------------------

theorem countP_ge_succ_lt (used : List Nat) (port : Nat) (hin : port ∈ used) :
    used.countP (fun x => decide (port + 1 ≤ x)) <
      used.countP (fun x => decide (port ≤ x)) := by
  induction used with
  | nil => cases hin
  | cons a rest ih =>
    have hmono : rest.countP (fun x => decide (port + 1 ≤ x)) ≤
        rest.countP (fun x => decide (port ≤ x)) :=
      List.countP_mono_left (fun x _ hx => by
        simp only [decide_eq_true_eq] at hx ⊢; omega)
    rcases List.mem_cons.mp hin with ha | ha
    · subst ha
      simp only [List.countP_cons, decide_eq_true_eq]
      rw [if_neg (by omega), if_pos (by omega)]
      omega
    · have := ih ha
      simp only [List.countP_cons, decide_eq_true_eq]
      by_cases h1 : port + 1 ≤ a <;> by_cases h2 : port ≤ a <;>
        simp [h1, h2] <;> omega

theorem findPortGo_spec (used : List Nat) :
    ∀ (fuel port : Nat), used.countP (fun x => decide (port ≤ x)) < fuel →
      findPortGo used fuel port ∉ used ∧
      port ≤ findPortGo used fuel port ∧
      ∀ q, port ≤ q → q < findPortGo used fuel port → q ∈ used := by
  intro fuel
  induction fuel with
  | zero => intro port h; omega
  | succ f ih =>
    intro port h
    by_cases hin : port ∈ used
    · have hcnt := countP_ge_succ_lt used port hin
      have h2 := ih (port + 1) (by omega)
      unfold findPortGo
      rw [if_pos hin]
      refine ⟨h2.1, by omega, ?_⟩
      intro q hq hlt
      by_cases hqe : q = port
      · subst hqe; exact hin
      · exact h2.2.2 q (by omega) hlt
    · unfold findPortGo
      rw [if_neg hin]
      exact ⟨hin, Nat.le_refl port, fun q hq hlt => absurd hlt (by omega)⟩

/-- C8: `_find_available_port` starting at 7681 returns a port that is at
least 7681, is not among the host-port bindings in use, and below which
every candidate at or above 7681 is busy (i.e. the smallest free port);
in particular, when 7681 itself is bound the result is at least 7682. -/
theorem find_available_port_correct (used : List Nat) :
    find_available_port used 7681 ∉ used ∧
    7681 ≤ find_available_port used 7681 ∧
    (∀ q, 7681 ≤ q → q < find_available_port used 7681 → q ∈ used) ∧
    (7681 ∈ used → 7682 ≤ find_available_port used 7681) := by
  unfold find_available_port
  have h := findPortGo_spec used (used.length + 1) 7681
    (by have := List.countP_le_length (fun x => decide (7681 ≤ x)) (l := used); omega)
  refine ⟨h.1, h.2.1, h.2.2, ?_⟩
  intro hin
  by_contra hlt
  push_neg at hlt
  have h1 := h.2.1
  have heq : findPortGo used (used.length + 1) 7681 = 7681 := by omega
  rw [heq] at h
  exact h.1 hin

/-- C8 witness: with 7681 and 7683 bound, the allocator hands out 7682. -/
theorem find_available_port_witness :
    find_available_port [7681, 7683] 7681 = 7682 ∧
    7682 ∉ ([7681, 7683] : List Nat) ∧
    7682 ≤ find_available_port [7681, 7683] 7681 := by
  refine ⟨by decide, by decide, ?_⟩
  exact (find_available_port_correct [7681, 7683]).2.2.2 (by decide)

-- ---------------------------------------------------------------------------
-- C9: TTL enforcement in the monitor tick
-- ---------------------------------------------------------------------------

/-- C9: whenever a monitor tick reaches the TTL check (a healthy result) on
a session with positive TTL whose elapsed lifetime
`(now_ms - created_at) / 1000` exceeds the TTL, the tick marks the session
RECYCLING (and keeps it tracked for the lifecycle engine to finish). -/
theorem monitor_ttl_marks_recycling (reason : String) (nowMs : Nat)
    (ctx : SessionContext) (httl : 0 < ctx.ttl)
    (helapsed : (ctx.ttl : ℚ) < ((nowMs : ℚ) - (ctx.created_at : ℚ)) / 1000) :
    (monitorTickSession (.result true reason) nowMs ctx).1.state =
        SessionState.recycling ∧
    (monitorTickSession (.result true reason) nowMs ctx).2 = true := by
  unfold monitorTickSession
  simp [httl, helapsed]

/-- C9 witness: a 1-second-TTL session created at epoch 0, observed healthy
2 seconds later, is marked RECYCLING. -/
theorem monitor_ttl_marks_recycling_witness :
    (monitorTickSession (.result true "ok") 2000 sampleSession).1.state =
        SessionState.recycling ∧
    (monitorTickSession (.result true "ok") 2000 sampleSession).2 = true :=
  monitor_ttl_marks_recycling "ok" 2000 sampleSession (by norm_num [sampleSession])
    (by norm_num [sampleSession])

-- ---------------------------------------------------------------------------
-- C7: agent loader
-- ---------------------------------------------------------------------------

theorem loadAgentsStep_fst_congr (acc acc2 : AgentTable × List String)
    (f : AgentFile) (h : acc.1 = acc2.1) :
    (loadAgentsStep acc f).1 = (loadAgentsStep acc2 f).1 := by
  by_cases hj : f.isJsonFile = false
  · simp [loadAgentsStep, hj, h]
  · cases hp : f.parsed with
    | none => simp [loadAgentsStep, hj, hp, h]
    | some raw =>
      by_cases h1 : raw.name = "" ∨ raw.image = ""
      · simp [loadAgentsStep, hj, hp, h1, h]
      · by_cases h2 : raw.ctorOk = false
        · simp [loadAgentsStep, hj, hp, h1, h2, h]
        · simp [loadAgentsStep, hj, hp, h1, h2, h]

theorem load_fold_fst_congr (files : List AgentFile) :
    ∀ acc acc2 : AgentTable × List String, acc.1 = acc2.1 →
      (files.foldl loadAgentsStep acc).1 = (files.foldl loadAgentsStep acc2).1 := by
  induction files with
  | nil => intro acc acc2 h; exact h
  | cons f rest ih =>
    intro acc acc2 h
    exact ih _ _ (loadAgentsStep_fst_congr acc acc2 f h)

theorem loadAgentsStep_stripped_mono (acc : AgentTable × List String)
    (f : AgentFile) (x : String) (hx : x ∈ acc.2) :
    x ∈ (loadAgentsStep acc f).2 := by
  by_cases hj : f.isJsonFile = false
  · simp [loadAgentsStep, hj, hx]
  · cases hp : f.parsed with
    | none =>
      by_cases hw : f.worldWritable = true <;>
        simp [loadAgentsStep, hj, hp, hw, hx]
    | some raw =>
      by_cases h1 : raw.name = "" ∨ raw.image = "" <;>
        by_cases h2 : raw.ctorOk = false <;>
        by_cases hw : f.worldWritable = true <;>
        simp [loadAgentsStep, hj, hp, h1, h2, hw, hx]

theorem load_fold_stripped_mono (files : List AgentFile) :
    ∀ (acc : AgentTable × List String) (x : String), x ∈ acc.2 →
      x ∈ (files.foldl loadAgentsStep acc).2 := by
  induction files with
  | nil => intro acc x hx; exact hx
  | cons f rest ih =>
    intro acc x hx
    exact ih _ x (loadAgentsStep_stripped_mono acc f x hx)

theorem loadAgentsStep_strips (acc : AgentTable × List String) (f : AgentFile)
    (hj : f.isJsonFile = true) (hw : f.worldWritable = true) :
    f.fname ∈ (loadAgentsStep acc f).2 := by
  have hj2 : ¬ f.isJsonFile = false := by simp [hj]
  cases hp : f.parsed with
  | none => simp [loadAgentsStep, hj2, hp, hw]
  | some raw =>
    by_cases h1 : raw.name = "" ∨ raw.image = "" <;>
      by_cases h2 : raw.ctorOk = false <;>
      simp [loadAgentsStep, hj2, hp, h1, h2, hw]

theorem loadAgentsStep_skip_fst (acc : AgentTable × List String) (f : AgentFile)
    (hna : f.isJsonFile = false ∨ f.parsed = none ∨
      ∃ raw, f.parsed = some raw ∧
        (raw.name = "" ∨ raw.image = "" ∨ raw.ctorOk = false)) :
    (loadAgentsStep acc f).1 = acc.1 := by
  by_cases hj : f.isJsonFile = false
  · simp [loadAgentsStep, hj]
  · rcases hna with hna | hna | ⟨raw2, hp2, hraw⟩
    · exact absurd hna hj
    · simp [loadAgentsStep, hj, hna]
    · rcases hraw with h1 | h1 | h1
      · simp [loadAgentsStep, hj, hp2, h1]
      · simp [loadAgentsStep, hj, hp2, h1]
      · by_cases hio : raw2.name = "" ∨ raw2.image = ""
        · simp [loadAgentsStep, hj, hp2, hio]
        · simp [loadAgentsStep, hj, hp2, hio, h1]

/-- C7 counterexample: a world-writable but well-formed agent file is loaded
(after logging and stripping the world-write bit) — the loader does not
refuse it. -/
theorem load_agents_world_writable_cex :
    wwFile.worldWritable = true ∧
    (load_agents [wwFile]).1.lookup "dev" =
      some { name := "dev", image := "dev:1", capabilities := ["shell"],
             hardened := false } ∧
    (load_agents [wwFile]).2 = ["dev.json"] := ⟨rfl, rfl, rfl⟩

/-- C7 amended: for every world-writable `.json` file the loader logs and
strips the world-write bit before reading, then loads the file normally
(rather than refusing it); and any file that is malformed — unparseable
JSON, a missing/empty `name` or `image`, or a failing constructor — is
skipped with a warning and contributes nothing to the agent table while the
remaining files still load (loading never aborts). -/
theorem load_agents_amended :
    (∀ (l1 l2 : List AgentFile) (f : AgentFile), f.isJsonFile = true →
        f.worldWritable = true →
        f.fname ∈ (load_agents (l1 ++ f :: l2)).2) ∧
    (∀ (l1 l2 : List AgentFile) (f : AgentFile),
        (f.isJsonFile = false ∨ f.parsed = none ∨
          ∃ raw, f.parsed = some raw ∧
            (raw.name = "" ∨ raw.image = "" ∨ raw.ctorOk = false)) →
        (load_agents (l1 ++ f :: l2)).1 = (load_agents (l1 ++ l2)).1) := by
  constructor
  · intro l1 l2 f hj hw
    unfold load_agents
    rw [List.foldl_append, List.foldl_cons]
    exact load_fold_stripped_mono l2 _ f.fname (loadAgentsStep_strips _ f hj hw)
  · intro l1 l2 f hna
    unfold load_agents
    rw [List.foldl_append, List.foldl_cons, List.foldl_append]
    exact load_fold_fst_congr l2 _ _ (loadAgentsStep_skip_fst _ f hna)

/-- C7 witness: with a broken file first, a world-writable file second and a
clean file third, the world-writable file is recorded as stripped and the
broken file changes nothing about the resulting agent table. -/
theorem load_agents_amended_witness :
    "dev.json" ∈ (load_agents [badFile, wwFile, goodFile]).2 ∧
    (load_agents [badFile, wwFile, goodFile]).1 =
      (load_agents [wwFile, goodFile]).1 := by
  constructor
  · exact load_agents_amended.1 [badFile] [goodFile] wwFile rfl rfl
  · exact load_agents_amended.2 [] [wwFile, goodFile] badFile
      (Or.inr (Or.inl rfl))

-- ---------------------------------------------------------------------------
-- C6: terminal-bridge completion detector
-- ---------------------------------------------------------------------------

theorem rcGo_sound (panes : Nat → PaneCapture) :
    ∀ (fuel k stable last waited w : Nat),
      waited = k → stable ≤ k → stable < 3 →
      (∀ j, j < stable →
        (panes (k - 1 - j)).lineCount = last ∧
        (panes (k - 1 - j)).promptInLastLine = true) →
      rcGo panes fuel k stable last waited = some w →
      3 ≤ w ∧
      ∃ c, ((panes (w - 3)).lineCount = c ∧
            (panes (w - 3)).promptInLastLine = true) ∧
           ((panes (w - 2)).lineCount = c ∧
            (panes (w - 2)).promptInLastLine = true) ∧
           ((panes (w - 1)).lineCount = c ∧
            (panes (w - 1)).promptInLastLine = true) := by
  intro fuel
  induction fuel with
  | zero => intro k stable last waited w _ _ _ _ h; cases h
  | succ f ih =>
    intro k stable last waited w hwk hsk hs3 hinv h
    simp only [rcGo] at h
    by_cases hc : (panes k).lineCount = last ∧ (panes k).promptInLastLine = true
    · rw [if_pos hc] at h
      by_cases hb : 3 ≤ stable + 1
      · rw [if_pos hb] at h
        injection h with h
        have hst : stable = 2 := by omega
        have hw2 : w = k + 1 := by omega
        subst hw2
        refine ⟨by omega, last, ?_, ?_, ?_⟩
        · have hj := hinv 1 (by omega)
          have hidx : k + 1 - 3 = k - 1 - 1 := by omega
          rw [hidx]; exact hj
        · have hj := hinv 0 (by omega)
          have hidx : k + 1 - 2 = k - 1 - 0 := by omega
          rw [hidx]; exact hj
        · have hidx : k + 1 - 1 = k := by omega
          rw [hidx]; exact hc
      · rw [if_neg hb] at h
        refine ih (k + 1) (stable + 1) last (waited + 1) w (by omega) (by omega)
          (by omega) ?_ h
        intro j hj
        cases j with
        | zero =>
          have hidx : k + 1 - 1 - 0 = k := by omega
          rw [hidx]; exact hc
        | succ j2 =>
          have hj2 := hinv j2 (by omega)
          have hidx : k + 1 - 1 - (j2 + 1) = k - 1 - j2 := by omega
          rw [hidx]; exact hj2
    · rw [if_neg hc] at h
      exact ih (k + 1) 0 (panes k).lineCount (waited + 1) w (by omega) (by omega)
        (by omega) (fun j hj => absurd hj (by omega)) h

theorem rcGo_stable_three (panes : Nat → PaneCapture) (c : Nat)
    (hstable : ∀ k, (panes k).lineCount = c ∧ (panes k).promptInLastLine = true) :
    ∀ fuel k waited, 3 ≤ fuel →
      rcGo panes fuel k 0 c waited = some (waited + 3) := by
  intro fuel k waited h3
  obtain ⟨f, rfl⟩ : ∃ f, fuel = f + 3 := ⟨fuel - 3, by omega⟩
  simp only [rcGo, (hstable k).1, (hstable k).2, (hstable (k + 1)).1,
    (hstable (k + 1)).2, (hstable (k + 2)).1, (hstable (k + 2)).2]
  norm_num

theorem rcGo_no_prompt_none (panes : Nat → PaneCapture) :
    ∀ (fuel k stable last waited : Nat),
      (∀ j, j < fuel → (panes (k + j)).promptInLastLine = false) →
      rcGo panes fuel k stable last waited = none := by
  intro fuel
  induction fuel with
  | zero => intro k stable last waited _; rfl
  | succ f ih =>
    intro k stable last waited h
    have h0 : (panes k).promptInLastLine = false := by
      simpa using h 0 (by omega)
    simp only [rcGo]
    rw [if_neg (by simp [h0])]
    refine ih (k + 1) 0 (panes k).lineCount (waited + 1) ?_
    intro j hj
    have hidx : k + 1 + j = k + (j + 1) := by omega
    rw [hidx]
    exact h (j + 1) (by omega)

/-- C6 counterexample: at a pane that is stable with the prompt visible from
the very first poll, the detector does not declare the agent done after two
consecutive stable polls (which would be `ok 2`); it needs a third. -/
theorem bridge_two_polls_cex :
    run_and_capture stablePane 5 10 = .ok 3 ∧
    run_and_capture stablePane 5 10 ≠ .ok 2 := by
  constructor
  · rfl
  · rw [show run_and_capture stablePane 5 10 = Except.ok 3 from rfl]
    simp

/-- C6 amended: the fallback detector polls once per second
(`poll_interval = 1.0`) and requires THREE consecutive stable polls with the
prompt line present: a successful return took at least three polls, ended
below the cap, and its last three polls were stable at one line count with
the prompt shown; at a pane stable-with-prompt throughout it returns on
exactly the third poll when the cap allows; and when no poll within the
caller's timeout ever shows the prompt it raises the HTTP 408 timeout. -/
theorem bridge_completion_detector :
    (∀ (panes : Nat → PaneCapture) (before timeout w : Nat),
        run_and_capture panes before timeout = .ok w →
        3 ≤ w ∧ w < timeout ∧
        ∃ c, ((panes (w - 3)).lineCount = c ∧
              (panes (w - 3)).promptInLastLine = true) ∧
             ((panes (w - 2)).lineCount = c ∧
              (panes (w - 2)).promptInLastLine = true) ∧
             ((panes (w - 1)).lineCount = c ∧
              (panes (w - 1)).promptInLastLine = true)) ∧
    (∀ (panes : Nat → PaneCapture) (c timeout : Nat),
        (∀ k, (panes k).lineCount = c ∧ (panes k).promptInLastLine = true) →
        4 ≤ timeout → run_and_capture panes c timeout = .ok 3) ∧
    (∀ (panes : Nat → PaneCapture) (before timeout : Nat),
        (∀ j, j < timeout → (panes j).promptInLastLine = false) →
        run_and_capture panes before timeout = .error "timeout") := by
  refine ⟨?_, ?_, ?_⟩
  · intro panes before timeout w h
    unfold run_and_capture at h
    split at h
    next hr => cases h
    next waited hr =>
      by_cases hcap : timeout ≤ waited
      · rw [if_pos hcap] at h; cases h
      · rw [if_neg hcap] at h
        injection h with h
        subst h
        have hs := rcGo_sound panes timeout 0 0 before 0 waited rfl (by omega)
          (by omega) (fun j hj => absurd hj (by omega)) hr
        exact ⟨hs.1, by omega, hs.2⟩
  · intro panes c timeout hstable hcap
    unfold run_and_capture
    rw [rcGo_stable_three panes c hstable timeout 0 0 (by omega)]
    show (if timeout ≤ 0 + 3 then (Except.error "timeout" : Except String Nat)
          else Except.ok (0 + 3)) = Except.ok 3
    rw [if_neg (by omega)]
  · intro panes before timeout h
    unfold run_and_capture
    rw [rcGo_no_prompt_none panes timeout 0 0 before 0
      (fun j hj => by simpa using h j hj)]

/-- C6 witness: the amended statement at a stable pane (done on the third
poll) and at a promptless pane (timeout). -/
theorem bridge_completion_detector_witness :
    run_and_capture stablePane 5 10 = Except.ok 3 ∧
    run_and_capture (fun _ => { lineCount := 7, promptInLastLine := false })
      7 4 = Except.error "timeout" := by
  constructor
  · exact bridge_completion_detector.2.1 stablePane 5 10
      (fun k => ⟨rfl, rfl⟩) (by norm_num)
  · exact bridge_completion_detector.2.2
      (fun _ => { lineCount := 7, promptInLastLine := false }) 7 4
      (fun j hj => rfl)

-- ---------------------------------------------------------------------------
-- Pending-queue lemmas
-- ---------------------------------------------------------------------------

theorem lookup_append_cases {α : Type} (p q : List (String × α)) (k : String) :
    (p ++ q).lookup k =
      match p.lookup k with
      | some v => some v
      | none => q.lookup k := by
  induction p with
  | nil => rfl
  | cons e rest ih =>
    obtain ⟨ek, ev⟩ := e
    by_cases he : k = ek
    · subst he; simp [List.lookup_cons]
    · simp [List.lookup_cons, beq_false_of_ne he, ih]

theorem lookup_map_update (p : PendingTable) (tid : String) (m : Message) :
    (p.map (fun q => if q.1 = tid then (q.1, q.2 ++ [m]) else q)).lookup tid =
      (p.lookup tid).map (fun l => l ++ [m]) := by
  induction p with
  | nil => rfl
  | cons q rest ih =>
    obtain ⟨qk, qv⟩ := q
    by_cases hq : qk = tid
    · subst hq; simp [List.lookup_cons]
    · have h2 : tid ≠ qk := fun hh => hq hh.symm
      simp [List.lookup_cons, hq, beq_false_of_ne h2, ih]

theorem lookup_map_update_ne (p : PendingTable) (tid tid2 : String)
    (m : Message) (h : tid2 ≠ tid) :
    (p.map (fun q => if q.1 = tid then (q.1, q.2 ++ [m]) else q)).lookup tid2 =
      p.lookup tid2 := by
  induction p with
  | nil => rfl
  | cons q rest ih =>
    obtain ⟨qk, qv⟩ := q
    by_cases hq : qk = tid
    · subst hq
      simp [List.lookup_cons, beq_false_of_ne h, ih]
    · by_cases hq2 : tid2 = qk
      · subst hq2; simp [List.lookup_cons, hq]
      · simp [List.lookup_cons, hq, beq_false_of_ne hq2, ih]

theorem lookupD_pendingAppend_self (p : PendingTable) (tid : String)
    (m : Message) :
    ((pendingAppend p tid m).lookup tid).getD [] =
      ((p.lookup tid).getD []) ++ [m] := by
  unfold pendingAppend
  by_cases hs : (p.lookup tid).isSome = true
  · rw [if_pos hs, lookup_map_update]
    obtain ⟨l, hl⟩ := Option.isSome_iff_exists.mp hs
    rw [hl]
    rfl
  · rw [if_neg hs]
    have hnone : p.lookup tid = none := Option.not_isSome_iff_eq_none.mp hs
    rw [lookup_append_cases, hnone]
    simp [List.lookup_cons]

theorem lookup_pendingAppend_ne (p : PendingTable) (tid tid2 : String)
    (m : Message) (h : tid2 ≠ tid) :
    (pendingAppend p tid m).lookup tid2 = p.lookup tid2 := by
  unfold pendingAppend
  by_cases hs : (p.lookup tid).isSome = true
  · rw [if_pos hs]
    exact lookup_map_update_ne p tid tid2 m h
  · rw [if_neg hs, lookup_append_cases]
    cases hp : p.lookup tid2 with
    | some v => rfl
    | none => simp [List.lookup_cons, beq_false_of_ne h]

theorem lookupD_enqueueAll (m : Message) :
    ∀ (ts : List Token) (p : PendingTable) (tid : String),
      ((enqueueAll ts m p).lookup tid).getD [] =
        ((p.lookup tid).getD []) ++
          List.replicate (ts.countP (fun t => decide (t.token_id = tid))) m := by
  intro ts
  induction ts with
  | nil => intro p tid; simp [enqueueAll]
  | cons t rest ih =>
    intro p tid
    have hstep : enqueueAll (t :: rest) m p =
        enqueueAll rest m (pendingAppend p t.token_id m) := rfl
    rw [hstep, ih (pendingAppend p t.token_id m) tid]
    by_cases ht : t.token_id = tid
    · rw [ht, lookupD_pendingAppend_self]
      simp [List.countP_cons, ht, List.replicate_succ, List.append_assoc]
    · have h2 : tid ≠ t.token_id := fun hh => ht hh.symm
      rw [lookup_pendingAppend_ne p t.token_id tid m h2]
      simp [List.countP_cons, ht]

-- ---------------------------------------------------------------------------
-- evaluate_message lemmas
-- ---------------------------------------------------------------------------

theorem evaluate_message_deny_reason (agents : AgentTable) (tokens : TokenTable)
    (now : Nat) (sender : Option Token) (r : String) (env : Envelope)
    (h : (evaluate_message agents tokens now sender r env).1.allowed = false) :
    ((evaluate_message agents tokens now sender r env).1.reason).isSome = true := by
  cases sender with
  | none => rfl
  | some tok =>
    cases hv : (validate_token tok.token_id now tokens).1 with
    | none => simp [evaluate_message, hv]
    | some t2 =>
      simp only [evaluate_message, hv] at h ⊢
      by_cases hrec : ¬r = "" ∧ ¬r = "hub" ∧ List.lookup r agents = none
      · rw [if_pos hrec]; rfl
      · rw [if_neg hrec] at h ⊢
        by_cases hpay : env.isEmptyDict = true ∨ env.mtype = none
        · rw [if_pos hpay]; rfl
        · rw [if_neg hpay] at h
          exact absurd h (by simp)

theorem evaluate_message_allowed_table (agents : AgentTable)
    (tokens : TokenTable) (now : Nat) (sender : Option Token) (r : String)
    (env : Envelope)
    (h : (evaluate_message agents tokens now sender r env).1.allowed = true) :
    (evaluate_message agents tokens now sender r env).2 = tokens := by
  cases sender with
  | none => simp [evaluate_message] at h
  | some tok =>
    cases hv : (validate_token tok.token_id now tokens).1 with
    | none => simp [evaluate_message, hv] at h
    | some t2 =>
      have htab := validate_token_some_table tok.token_id now tokens t2 hv
      simp only [evaluate_message, hv] at h ⊢
      by_cases hrec : ¬r = "" ∧ ¬r = "hub" ∧ List.lookup r agents = none
      · rw [if_pos hrec] at h
        exact absurd h (by simp)
      · rw [if_neg hrec] at h ⊢
        by_cases hpay : env.isEmptyDict = true ∨ env.mtype = none
        · rw [if_pos hpay] at h
          exact absurd h (by simp)
        · rw [if_neg hpay]
          exact htab

-- ---------------------------------------------------------------------------
-- C10: route is atomic on rejection
-- ---------------------------------------------------------------------------

/-- C10: whenever `route` rejects an envelope (missing, invalid or expired
sender token, or a policy denial), it raises after appending exactly one
audit record with status `rejected` and a reason, and it leaves every
pending-message queue unchanged. -/
theorem route_reject_atomic (agents : AgentTable) (retention : Nat)
    (due : Bool) (now : Nat) (entryId msgId : String) (env : Envelope)
    (st : MsgState) (msg : String) (st2 : MsgState)
    (h : route agents retention due now entryId msgId env st =
      (.error msg, st2)) :
    st2.pending = st.pending ∧
    ∃ e : LogEntry, e.status = "rejected" ∧ e.reason.isSome = true ∧
      st2.mlog = appendCapped retention st.mlog e := by
  simp only [route] at h
  split at h
  next hv =>
    have h2 := (congrArg Prod.snd h).symm
    subst h2
    refine ⟨rfl, _, ?_, ?_, rfl⟩
    · rfl
    · rfl
  next token hv =>
    set v := (if otruthy env.sender_token_id = true then
        validate_token (env.sender_token_id.getD "") now st.tokens
      else (none, st.tokens)) with hvdef
    by_cases hal : (evaluate_message agents v.2 now
        (some token) (env.recipient.getD "hub") env).1.allowed = false
    · rw [if_pos hal] at h
      have h2 := (congrArg Prod.snd h).symm
      subst h2
      refine ⟨rfl, _, ?_, ?_, rfl⟩
      · rfl
      · exact evaluate_message_deny_reason _ _ _ _ _ _ hal
    · rw [if_neg hal] at h
      exact absurd (congrArg Prod.fst h) (by simp)

/-- C10 witness: an envelope without a sender token is rejected with one
`invalid_token` audit record and untouched queues. -/
theorem route_reject_atomic_witness :
    (route twoAgents 100 false 1000 "e1" "m1" rejectEnv emptyMsgState).2.pending
        = emptyMsgState.pending ∧
    ∃ e : LogEntry, e.status = "rejected" ∧ e.reason.isSome = true ∧
      (route twoAgents 100 false 1000 "e1" "m1" rejectEnv
        emptyMsgState).2.mlog = appendCapped 100 emptyMsgState.mlog e :=
  route_reject_atomic twoAgents 100 false 1000 "e1" "m1" rejectEnv
    emptyMsgState "Invalid or expired token"
    (route twoAgents 100 false 1000 "e1" "m1" rejectEnv emptyMsgState).2 rfl

-- ---------------------------------------------------------------------------
-- C5: one copy per recipient token
-- ---------------------------------------------------------------------------

/-- C5 counterexample: with the lazy sweep not due (`list_tokens` returns
the table unswept), an EXPIRED token held by the recipient also receives a
copy of the message, contradicting the claim that only live (unexpired)
recipient tokens are enqueued to. -/
theorem route_expired_token_cex :
    bobTokenExpired.agent_name = "bob" ∧ bobTokenExpired.expiry < 1000 ∧
    ((route twoAgents 100 false 1000 "e1" "m1" aliceToBobEnv
        routeState).2.pending.lookup "tb2") = some [deliveredMsg] := by
  refine ⟨rfl, by norm_num [bobTokenExpired], ?_⟩
  rfl

/-- C5 amended: on an accepted envelope addressed to an agent (truthy
recipient, not the literal `hub`), exactly one copy of the message is
appended to the pending queue of each token currently held by that agent in
the token table after `list_tokens`' conditional sweep — which includes
expired tokens whenever the sweep is not due — and no other queue changes. -/
theorem route_enqueue_per_token (agents : AgentTable) (retention : Nat)
    (due : Bool) (now : Nat) (entryId msgId : String) (env : Envelope)
    (st : MsgState) (msg : Message) (st2 : MsgState) (r : String)
    (hrec : env.recipient = some r) (hr1 : ¬ r = "") (hr2 : ¬ r = "hub")
    (h : route agents retention due now entryId msgId env st = (.ok msg, st2)) :
    ∀ tid, (st2.pending.lookup tid).getD [] =
      ((st.pending.lookup tid).getD []) ++
        List.replicate
          (((list_tokens st.tokens now due).1.filter
              (fun t => t.agent_name = r)).countP
            (fun t => decide (t.token_id = tid)))
          msg := by
  simp only [route] at h
  split at h
  next hv => exact absurd (congrArg Prod.fst h) (by simp)
  next token hv =>
    set v := (if otruthy env.sender_token_id = true then
        validate_token (env.sender_token_id.getD "") now st.tokens
      else (none, st.tokens)) with hvdef
    have hv2 : v.2 = st.tokens := by
      by_cases hot : otruthy env.sender_token_id = true
      · rw [hvdef, if_pos hot] at hv ⊢
        exact validate_token_some_table _ _ _ _ hv
      · rw [hvdef, if_neg hot] at hv
        exact absurd hv (by simp)
    by_cases hal : (evaluate_message agents v.2 now (some token)
        (env.recipient.getD "hub") env).1.allowed = false
    · rw [if_pos hal] at h
      exact absurd (congrArg Prod.fst h) (by simp)
    · rw [if_neg hal] at h
      have hal2 : (evaluate_message agents v.2 now (some token)
          (env.recipient.getD "hub") env).1.allowed = true := by
        revert hal
        cases (evaluate_message agents v.2 now (some token)
          (env.recipient.getD "hub") env).1.allowed <;> simp
      have hc2 : (evaluate_message agents v.2 now (some token)
          (env.recipient.getD "hub") env).2 = v.2 :=
        evaluate_message_allowed_table _ _ _ _ _ _ hal2
      simp only [hrec, Option.getD_some] at h hc2
      rw [if_pos ⟨hr1, hr2⟩] at h
      simp only [hv2] at h hc2
      simp only [hc2] at h
      have h2 := (congrArg Prod.snd h).symm
      subst h2
      have hm := congrArg Prod.fst h
      replace hm : Except.ok (ε := String)
          { id := msgId, timestamp := now, sender := token.agent_name,
            sender_token_id := token.token_id, task_id := token.task_id,
            recipient := r, mtype := env.mtype, payload := env.payload } =
          Except.ok msg := hm
      injection hm with hm
      subst hm
      intro tid
      exact lookupD_enqueueAll _
        ((list_tokens st.tokens now due).1.filter
          (fun t => decide (t.agent_name = r))) st.pending tid

/-- C5 witness: the amended statement at the concrete alice→bob routing
state, instantiated at bob's live token queue and at alice's queue. -/
theorem route_enqueue_per_token_witness :
    (((route twoAgents 100 false 1000 "e1" "m1" aliceToBobEnv
        routeState).2.pending.lookup "tb1").getD []) =
      ((routeState.pending.lookup "tb1").getD []) ++
        List.replicate
          (((list_tokens routeState.tokens 1000 false).1.filter
              (fun t => t.agent_name = "bob")).countP
            (fun t => decide (t.token_id = "tb1")))
          deliveredMsg ∧
    (((route twoAgents 100 false 1000 "e1" "m1" aliceToBobEnv
        routeState).2.pending.lookup "ta").getD []) =
      ((routeState.pending.lookup "ta").getD []) ++
        List.replicate
          (((list_tokens routeState.tokens 1000 false).1.filter
              (fun t => t.agent_name = "bob")).countP
            (fun t => decide (t.token_id = "ta")))
          deliveredMsg :=
  ⟨route_enqueue_per_token twoAgents 100 false 1000 "e1" "m1" aliceToBobEnv
    routeState deliveredMsg
    (route twoAgents 100 false 1000 "e1" "m1" aliceToBobEnv routeState).2
    "bob" rfl (by decide) (by decide) rfl "tb1",
   route_enqueue_per_token twoAgents 100 false 1000 "e1" "m1" aliceToBobEnv
    routeState deliveredMsg
    (route twoAgents 100 false 1000 "e1" "m1" aliceToBobEnv routeState).2
    "bob" rfl (by decide) (by decide) rfl "ta"⟩

-- ---------------------------------------------------------------------------
-- C4: snapshot restore
-- ---------------------------------------------------------------------------

theorem keepFold_lookup_not_mem {α : Type} (keep : String × α → Prop)
    [DecidablePred keep] :
    ∀ (entries : List (String × α)) (init : List (String × α)) (k : String),
      (∀ p ∈ entries, ¬ p.1 = k) →
      ((entries.foldl
          (fun t p => if keep p then tableInsert t p.1 p.2 else t)
          init).lookup k) = init.lookup k := by
  intro entries
  induction entries with
  | nil => intro init k _; rfl
  | cons e rest ih =>
    intro init k h
    have he : ¬ e.1 = k := h e (List.mem_cons_self e rest)
    simp only [List.foldl_cons]
    by_cases hk : keep e
    · rw [if_pos hk, ih _ k (fun p hp => h p (List.mem_cons_of_mem e hp)),
        lookup_tableInsert_ne init e.1 k e.2 (fun hh => he hh.symm)]
    · rw [if_neg hk]
      exact ih _ k (fun p hp => h p (List.mem_cons_of_mem e hp))

theorem keepFold_lookup_char {α : Type} (keep : String × α → Prop)
    [DecidablePred keep] :
    ∀ (entries : List (String × α)) (init : List (String × α)) (k : String),
      (entries.map Prod.fst).Nodup →
      ((entries.foldl
          (fun t p => if keep p then tableInsert t p.1 p.2 else t)
          init).lookup k) =
        ((entries.find? (fun p => p.1 == k)).elim (init.lookup k)
          (fun p => if keep p then some p.2 else init.lookup k)) := by
  intro entries
  induction entries with
  | nil => intro init k _; rfl
  | cons e rest ih =>
    intro init k hnd
    simp only [List.map_cons, List.nodup_cons] at hnd
    obtain ⟨hek, hrest⟩ := hnd
    simp only [List.foldl_cons]
    by_cases he : e.1 = k
    · rw [List.find?_cons_of_pos _ (by simp [he])]
      simp only [Option.elim]
      have hnk : ∀ p ∈ rest, ¬ p.1 = k := by
        intro p hp hpk
        apply hek
        rw [he, ← hpk]
        exact List.mem_map_of_mem Prod.fst hp
      by_cases hk : keep e
      · rw [if_pos hk, if_pos hk,
          keepFold_lookup_not_mem keep rest _ k hnk, ← he,
          lookup_tableInsert_self init e.1 e.2]
      · rw [if_neg hk, if_neg hk]
        exact keepFold_lookup_not_mem keep rest init k hnk
    · rw [List.find?_cons_of_neg _ (by simp [he])]
      have hstep : ((if keep e then tableInsert init e.1 e.2 else init).lookup k)
          = init.lookup k := by
        by_cases hk : keep e
        · rw [if_pos hk,
            lookup_tableInsert_ne init e.1 k e.2 (fun hh => he hh.symm)]
        · rw [if_neg hk]
      rw [ih (if keep e then tableInsert init e.1 e.2 else init) k hrest]
      cases hf : rest.find? (fun p => p.1 == k) with
      | none => simp only [Option.elim]; exact hstep
      | some p =>
        simp only [Option.elim]
        by_cases hkp : keep p
        · rw [if_pos hkp, if_pos hkp]
        · rw [if_neg hkp, if_neg hkp]
          exact hstep

theorem find_eq_iff_mem {α : Type} :
    ∀ (entries : List (String × α)) (k : String) (v : α),
      (entries.map Prod.fst).Nodup →
      (entries.find? (fun p => p.1 == k) = some (k, v) ↔ (k, v) ∈ entries) := by
  intro entries
  induction entries with
  | nil => intro k v _; simp
  | cons e rest ih =>
    intro k v hnd
    simp only [List.map_cons, List.nodup_cons] at hnd
    obtain ⟨hek, hrest⟩ := hnd
    by_cases he : e.1 = k
    · rw [List.find?_cons_of_pos _ (by simp [he])]
      constructor
      · intro hc
        injection hc with hc
        rw [← hc]
        exact List.mem_cons_self e rest
      · intro hm
        rcases List.mem_cons.mp hm with hm | hm
        · rw [hm]
        · exfalso
          apply hek
          have hkm : k ∈ rest.map Prod.fst := by
            simpa using List.mem_map_of_mem Prod.fst hm
          rw [he]
          exact hkm
    · rw [List.find?_cons_of_neg _ (by simp [he])]
      constructor
      · intro hc
        exact List.mem_cons_of_mem e ((ih k v hrest).mp hc)
      · intro hm
        rcases List.mem_cons.mp hm with hm | hm
        · exact absurd (congrArg Prod.fst hm.symm) he
        · exact (ih k v hrest).mpr hm

theorem keepFold_lookup_some_iff {α : Type} (keep : String × α → Prop)
    [DecidablePred keep] (entries : List (String × α)) (k : String) (v : α)
    (hnd : (entries.map Prod.fst).Nodup) :
    (((entries.foldl
        (fun t p => if keep p then tableInsert t p.1 p.2 else t)
        ([] : List (String × α))).lookup k) = some v) ↔
      ((k, v) ∈ entries ∧ keep (k, v)) := by
  rw [keepFold_lookup_char keep entries [] k hnd]
  cases hf : entries.find? (fun p => p.1 == k) with
  | none =>
    simp only [Option.elim]
    constructor
    · intro hc; exact absurd hc (by simp)
    · rintro ⟨hm, _⟩
      have hp := List.find?_eq_none.mp hf (k, v) hm
      simp at hp
  | some p =>
    simp only [Option.elim]
    have hpk : p.1 = k := by simpa using List.find?_some hf
    obtain ⟨pk, pv⟩ := p
    simp only at hpk
    subst hpk
    by_cases hkp : keep (pk, pv)
    · rw [if_pos hkp]
      constructor
      · intro hc
        injection hc with hc
        subst hc
        exact ⟨(find_eq_iff_mem entries pk pv hnd).mp hf, hkp⟩
      · rintro ⟨hm, hk2⟩
        have h2 := (find_eq_iff_mem entries pk v hnd).mpr hm
        rw [hf] at h2
        injection h2 with h2
        have hv := congrArg Prod.snd h2
        rw [hv]
    · rw [if_neg hkp]
      constructor
      · intro hc; exact absurd hc (by simp)
      · rintro ⟨hm, hk2⟩
        have h2 := (find_eq_iff_mem entries pk v hnd).mpr hm
        rw [hf] at h2
        injection h2 with h2
        have hv := congrArg Prod.snd h2
        subst hv
        exact absurd hk2 hkp

theorem registry_restore_getD (snap : Option (List (String × Token)))
    (now : Nat) (tbl : TokenTable) :
    registry_restore_state snap now tbl =
      (snap.getD []).foldl
        (fun t p => if now ≤ p.2.expiry then tableInsert t p.1 p.2 else t)
        tbl := by
  cases snap <;> rfl

theorem router_restore_keep_shape :
    ∀ (entries : List (String × Task)) (tasks : TaskTable),
      router_restore_state (some entries) tasks =
        entries.foldl
          (fun t p => if p.2.status.isTerminal = false then
            tableInsert t p.1 p.2 else t) tasks := by
  intro entries
  induction entries with
  | nil => intro tasks; rfl
  | cons e rest ih =>
    intro tasks
    simp only [router_restore_state, List.foldl_cons] at ih ⊢
    by_cases he : e.2.status.isTerminal = true
    · rw [if_pos he, if_neg (by simp [he])]
      exact ih tasks
    · have he2 : e.2.status.isTerminal = false := by
        revert he; cases e.2.status.isTerminal <;> simp
      rw [if_neg he, if_pos he2]
      exact ih (tableInsert tasks e.1 e.2)

theorem router_restore_getD (snap : Option (List (String × Task)))
    (tasks : TaskTable) :
    router_restore_state snap tasks =
      (snap.getD []).foldl
        (fun t p => if p.2.status.isTerminal = false then
          tableInsert t p.1 p.2 else t) tasks := by
  cases snap with
  | none => rfl
  | some entries => exact router_restore_keep_shape entries tasks

theorem validate_token_table_of_unexpired (k : String) (now : Nat)
    (tbl : TokenTable) (h : ∀ p ∈ tbl, now ≤ p.2.expiry) :
    (validate_token k now tbl).2 = tbl := by
  unfold validate_token
  split
  · rfl
  next tok hl =>
    have hm : now ≤ tok.expiry := h (k, tok) (mem_of_lookup_eq_some hl)
    rw [if_neg (by omega)]

theorem messages_restore_split :
    ∀ (entries : PendingTable) (now : Nat) (tokens : TokenTable)
      (pending : PendingTable),
      (∀ p ∈ tokens, now ≤ p.2.expiry) →
      messages_restore_state (some entries) now tokens pending =
        (tokens,
         entries.foldl
           (fun pp q =>
             if ((validate_token q.1 now tokens).1).isSome = true
             then tableInsert pp q.1 q.2 else pp) pending) := by
  intro entries
  induction entries with
  | nil => intro now tokens pending _; rfl
  | cons e rest ih =>
    intro now tokens pending h
    have hv2 : (validate_token e.1 now tokens).2 = tokens :=
      validate_token_table_of_unexpired e.1 now tokens h
    simp only [messages_restore_state, List.foldl_cons] at ih ⊢
    cases hv : (validate_token e.1 now tokens).1 with
    | some tk =>
      simp only [hv, hv2]
      rw [ih now tokens (tableInsert pending e.1 e.2) h]
      simp [hv]
    | none =>
      simp only [hv, hv2]
      rw [ih now tokens pending h]
      simp [hv]

/-- C4 counterexample: a pending queue whose messages' SENDER token (`ts`)
no longer validates is still restored, because `messages.restore_state`
validates the queue's own key token (the recipient token `ta`), not the
sender token of the messages it holds. -/
theorem restore_sender_token_cex :
    (hub_restore_state (some wSnapshot) 1000).pending.lookup "ta" =
      some [staleMsg] ∧
    staleMsg.sender_token_id = "ts" ∧
    (validate_token "ts" 1000
      (hub_restore_state (some wSnapshot) 1000).tokens).1 = none :=
  ⟨rfl, rfl, rfl⟩

/-- C4 amended: restoring state yields an empty state when the snapshot is
absent; every token whose expiry is at or after the current time is
preserved and every expired token dropped; every terminal task is dropped
and every non-terminal task preserved; each pending-message queue is kept
exactly when the token it is keyed under (the recipient token the messages
were enqueued for) still validates — not the sender token of its messages;
and the audit log is empty. -/
theorem hub_restore_correct (now : Nat) :
    hub_restore_state none now =
      { tokens := [], tasks := [], pending := [], mlog := [] } ∧
    ∀ s : Snapshot,
      ((s.registry.getD []).map Prod.fst).Nodup →
      ((s.router.getD []).map Prod.fst).Nodup →
      ((s.messagesPending.getD []).map Prod.fst).Nodup →
      (hub_restore_state (some s) now).mlog = [] ∧
      (∀ tid tok,
        (hub_restore_state (some s) now).tokens.lookup tid = some tok ↔
          ((tid, tok) ∈ s.registry.getD [] ∧ now ≤ tok.expiry)) ∧
      (∀ tid t,
        (hub_restore_state (some s) now).tasks.lookup tid = some t ↔
          ((tid, t) ∈ s.router.getD [] ∧ t.status.isTerminal = false)) ∧
      (∀ k q,
        (hub_restore_state (some s) now).pending.lookup k = some q ↔
          ((k, q) ∈ s.messagesPending.getD [] ∧
           ((validate_token k now
              (hub_restore_state (some s) now).tokens).1).isSome = true)) := by
  refine ⟨rfl, ?_⟩
  intro s hnd1 hnd2 hnd3
  have hunexp : ∀ p ∈ registry_restore_state s.registry now [],
      now ≤ p.2.expiry := by
    cases hr : s.registry with
    | none => intro p hp; cases hp
    | some entries =>
      exact registry_restore_unexpired entries now []
        (by intro p hp; cases hp)
  have hmp : messages_restore_state s.messagesPending now
      (registry_restore_state s.registry now []) [] =
      (registry_restore_state s.registry now [],
       (s.messagesPending.getD []).foldl
         (fun pp q =>
           if ((validate_token q.1 now
              (registry_restore_state s.registry now [])).1).isSome = true
           then tableInsert pp q.1 q.2 else pp) []) := by
    cases hm : s.messagesPending with
    | none => rfl
    | some entries => exact messages_restore_split entries now _ [] hunexp
  have hhub : hub_restore_state (some s) now =
      { tokens := registry_restore_state s.registry now [],
        tasks := router_restore_state s.router [],
        pending := (s.messagesPending.getD []).foldl
          (fun pp q =>
            if ((validate_token q.1 now
               (registry_restore_state s.registry now [])).1).isSome = true
            then tableInsert pp q.1 q.2 else pp) [],
        mlog := [] } := by
    simp only [hub_restore_state, hmp]
  rw [hhub]
  refine ⟨rfl, ?_, ?_, ?_⟩
  · intro tid tok
    rw [registry_restore_getD]
    exact keepFold_lookup_some_iff (fun p => now ≤ p.2.expiry) _ tid tok hnd1
  · intro tid t
    rw [router_restore_getD]
    exact keepFold_lookup_some_iff
      (fun p => p.2.status.isTerminal = false) _ tid t hnd2
  · intro k q
    exact keepFold_lookup_some_iff
      (fun p => ((validate_token p.1 now
        (registry_restore_state s.registry now [])).1).isSome = true)
      _ k q hnd3

/-- C4 witness: at the concrete snapshot, the live token and the running
task survive, the queue keyed by the live token is kept, the queue keyed by
an unknown token is dropped, and the audit log is empty. -/
theorem hub_restore_correct_witness :
    (hub_restore_state (some wSnapshot) 1000).mlog = [] ∧
    (hub_restore_state (some wSnapshot) 1000).tokens.lookup "ta" =
      some aliceToken ∧
    (hub_restore_state (some wSnapshot) 1000).tasks.lookup "t1" =
      some (sampleTask .running) ∧
    (hub_restore_state (some wSnapshot) 1000).pending.lookup "ta" =
      some [staleMsg] ∧
    ¬ (hub_restore_state (some wSnapshot) 1000).pending.lookup "zz" =
      some [staleMsg] := by
  obtain ⟨hnone, hmain⟩ := hub_restore_correct 1000
  obtain ⟨hlog, htok, htask, hpend⟩ :=
    hmain wSnapshot (by decide) (by decide) (by decide)
  refine ⟨hlog, ?_, ?_, ?_, ?_⟩
  · exact (htok "ta" aliceToken).mpr ⟨by decide, by decide⟩
  · exact (htask "t1" (sampleTask .running)).mpr ⟨by decide, rfl⟩
  · exact (hpend "ta" [staleMsg]).mpr ⟨by decide, by decide⟩
  · intro hc
    obtain ⟨hm, hv⟩ := (hpend "zz" [staleMsg]).mp hc
    exact absurd hv (by decide)

end Brainbox
